import Mathlib

/-!
Shallow embedding of the transaction merge/offset/split reconciliation engine
of the Intelligent-Expense-Tracker repository.

Sources embedded:
- src/constants.ts : BatchTransaction, handleUpdateBatchItem,
  handleDeleteBatchItem, handleSelectBatchMergeTarget, handleSplitBatchItem,
  handleSaveSingleBatchItem, handleSaveAllBatch, manual batch add,
  processAIResults item construction.
- src/App.tsx : addTransaction (the store commit, merge/offset and remainder
  arithmetic).

Conventions: JS number amounts are modelled as integers (Int): the
reconciliation logic uses only addition, subtraction and order
comparisons, which Int interprets faithfully, and Int arithmetic reduces
inside the kernel so concrete runs can be checked; JS string template
interpolation of a number is modelled by numStr; JS truthiness of an optional
string is modelled by optTruthy (undefined and the empty string are falsy);
Date.now() is modelled by an explicit natural-number timestamp parameter.
-/

inductive TransactionType where
  | expense
  | income
deriving DecidableEq, Repr

/-- `src/types.ts` Transaction: a persisted record of the Transaction Store. -/
structure Transaction where
  id : String
  amount : Int
  type : TransactionType
  categoryId : String
  date : String
  note : String
deriving DecidableEq, Repr

/-- `Omit<Transaction, 'id'>`: the payload handed to `addTransaction`. -/
structure NewTransaction where
  amount : Int
  type : TransactionType
  categoryId : String
  date : String
  note : String
deriving DecidableEq, Repr

/-- The non-recursive fields of `BatchTransaction` (src/constants.ts lines
28-36).  They are grouped into one structure because Lean structures cannot
be recursive; the recursive `mergedChildren` field lives in the inductive
wrapper below. -/
structure TxCore where
  tempId : String
  amount : Int
  type : TransactionType
  categoryId : String
  date : String
  note : String
  mergeTargetId : Option String
  originalAmount : Option Int
  originalNote : Option String
deriving DecidableEq, Repr

/-- `BatchTransaction` (src/constants.ts lines 28-36): a staged, unsaved
transaction of the batch buffer.  `mergedChildren` is `none` when the JS
field is `undefined`. -/
inductive BatchTransaction where
  | mk (core : TxCore) (mergedChildren : Option (List BatchTransaction))
deriving Repr

def BatchTransaction.core : BatchTransaction → TxCore
  | .mk c _ => c

def BatchTransaction.mergedChildren : BatchTransaction → Option (List BatchTransaction)
  | .mk _ m => m

def BatchTransaction.tempId (t : BatchTransaction) : String := t.core.tempId
def BatchTransaction.amount (t : BatchTransaction) : Int := t.core.amount
def BatchTransaction.type (t : BatchTransaction) : TransactionType := t.core.type
def BatchTransaction.categoryId (t : BatchTransaction) : String := t.core.categoryId
def BatchTransaction.date (t : BatchTransaction) : String := t.core.date
def BatchTransaction.note (t : BatchTransaction) : String := t.core.note
def BatchTransaction.mergeTargetId (t : BatchTransaction) : Option String := t.core.mergeTargetId
def BatchTransaction.originalAmount (t : BatchTransaction) : Option Int := t.core.originalAmount
def BatchTransaction.originalNote (t : BatchTransaction) : Option String := t.core.originalNote

/-- JS template interpolation of a number into a string. -/
def numStr (q : Int) : String := toString q

/-- JS truthiness of an optional string (`undefined` and `""` are falsy). -/
def optTruthy : Option String → Bool
  | none => false
  | some s => s != ""

/-- The Chinese kind label used in offset annotations
(`收入` for income, `支出` for expense). -/
def typeName : TransactionType → String
  | .income => "收入"
  | .expense => "支出"

/-! ## Batch buffer operations (src/constants.ts) -/

/-- A field edit coming from the batch review UI.  The UI calls
`handleUpdateBatchItem` with field names `amount`, `date`, `type`,
`categoryId` and `note` (src/constants.ts lines 568, 577, 586, 590, 615,
627). -/
inductive BatchField where
  | amountF (v : Int)
  | dateF (v : String)
  | typeF (v : TransactionType)
  | categoryIdF (v : String)
  | noteF (v : String)

/-- The field replacement done by `handleUpdateBatchItem` on the matching
item; a `type` edit additionally clears `mergeTargetId`
(src/constants.ts lines 205-209). -/
def applyField (t : BatchTransaction) : BatchField → BatchTransaction
  | .amountF v => .mk { t.core with amount := v } t.mergedChildren
  | .dateF v => .mk { t.core with date := v } t.mergedChildren
  | .typeF v => .mk { t.core with type := v, mergeTargetId := none } t.mergedChildren
  | .categoryIdF v => .mk { t.core with categoryId := v } t.mergedChildren
  | .noteF v => .mk { t.core with note := v } t.mergedChildren

/-- `handleUpdateBatchItem` (src/constants.ts lines 202-213). -/
def handleUpdateBatchItem (tempId : String) (f : BatchField)
    (batchList : List BatchTransaction) : List BatchTransaction :=
  batchList.map (fun t => if t.tempId == tempId then applyField t f else t)

/-- `handleDeleteBatchItem` (src/constants.ts lines 215-221); the
batch-mode exit on an emptied list is presentation state and not part of
the buffer. -/
def handleDeleteBatchItem (tempId : String)
    (batchList : List BatchTransaction) : List BatchTransaction :=
  batchList.filter (fun t => t.tempId != tempId)

/-- A freshly staged item as built by the manual add button
(src/constants.ts lines 669-677, with amount 0 and empty note) and by
`processAIResults` (lines 407-415): `mergeTargetId` is `undefined` and no
merge history fields are present. -/
def freshBatchItem (tempId : String) (amount : Int) (ty : TransactionType)
    (categoryId date note : String) : BatchTransaction :=
  .mk { tempId := tempId, amount := amount, type := ty,
        categoryId := categoryId, date := date, note := note,
        mergeTargetId := none, originalAmount := none, originalNote := none }
     none

/-- Appending newly created staged items to the buffer
(`setBatchList(prev => [...prev, ...newBatch])`, src/constants.ts lines
416 and 669). -/
def addBatchItems (newItems : List BatchTransaction)
    (batchList : List BatchTransaction) : List BatchTransaction :=
  batchList ++ newItems

/-- The `baseTarget` of `handleSelectBatchMergeTarget` (src/constants.ts
lines 266-271): the target itself when it already carries merge history,
otherwise the target with a freshly captured `originalAmount` and
`originalNote` snapshot and an empty children list. -/
def mergeBaseTarget (targetItem : BatchTransaction) : BatchTransaction :=
  match targetItem.mergedChildren with
  | some _ => targetItem
  | none =>
    .mk { targetItem.core with
            originalAmount := some targetItem.amount,
            originalNote := some targetItem.note } (some [])

/-- The `updatedTarget` of `handleSelectBatchMergeTarget`
(src/constants.ts lines 273-299): same-kind merge adds the amounts and
joins the notes; opposite-kind offset subtracts, floored at zero, and
annotates the note; both append the source to the children. -/
def mergeUpdatedTarget (sourceItem targetItem : BatchTransaction) :
    BatchTransaction :=
  let baseTarget := mergeBaseTarget targetItem
  if sourceItem.type = baseTarget.type then
    .mk { baseTarget.core with
            amount := baseTarget.amount + sourceItem.amount,
            note := if baseTarget.note != "" then
                      baseTarget.note ++ " + " ++ sourceItem.note
                    else sourceItem.note }
       (some (baseTarget.mergedChildren.getD [] ++ [sourceItem]))
  else
    let newTargetAmount := baseTarget.amount - sourceItem.amount
    let offsetNote := " (抵扣" ++ typeName sourceItem.type ++ " " ++
        numStr sourceItem.amount ++ ": " ++ sourceItem.note ++ ")"
    .mk { baseTarget.core with
            amount := if newTargetAmount > 0 then newTargetAmount else 0,
            note := baseTarget.note ++ offsetNote }
       (some (baseTarget.mergedChildren.getD [] ++ [sourceItem]))

/-- `handleSelectBatchMergeTarget` (src/constants.ts lines 253-319).
`activeBatchTempId` identifies the source item; `targetId` the chosen
target; `isUnsavedBatchItem` selects the staged-target branch (local
merge/offset arithmetic) versus the persisted-target branch (record
`mergeTargetId` only). -/
def handleSelectBatchMergeTarget (activeBatchTempId : Option String)
    (targetId : String) (isUnsavedBatchItem : Bool)
    (batchList : List BatchTransaction) : List BatchTransaction :=
  match activeBatchTempId with
  | none => batchList
  | some active =>
    if isUnsavedBatchItem then
      match batchList.find? (fun t => t.tempId == active),
            batchList.find? (fun t => t.tempId == targetId) with
      | some sourceItem, some targetItem =>
        (batchList.filter (fun t => t.tempId != active)).map
          (fun t => if t.tempId == targetId then
                      mergeUpdatedTarget sourceItem targetItem
                    else t)
      | _, _ => batchList
    else
      batchList.map (fun t =>
        if t.tempId == active then
          .mk { t.core with mergeTargetId := some targetId } t.mergedChildren
        else t)

/-- JS `Array.prototype.findIndex`, with `none` standing for -1. -/
def findIndex (p : α → Bool) : List α → Option Nat
  | [] => none
  | a :: as => if p a then some 0 else (findIndex p as).map (· + 1)

/-- `handleSplitBatchItem` (src/constants.ts lines 331-361): revert the
parent to its snapshot, clear the merge history fields, and splice the
absorbed children back in immediately after the parent. -/
def handleSplitBatchItem (tempId : String)
    (batchList : List BatchTransaction) : List BatchTransaction :=
  match findIndex (fun t => t.tempId == tempId) batchList with
  | none => batchList
  | some itemIndex =>
    match batchList.get? itemIndex with
    | none => batchList
    | some item =>
      match item.mergedChildren with
      | none => batchList
      | some children =>
        if children.isEmpty then batchList
        else
          let revertedParent : BatchTransaction :=
            .mk { item.core with
                    amount := item.core.originalAmount.getD item.core.amount,
                    note := item.core.originalNote.getD item.core.note,
                    originalAmount := none,
                    originalNote := none } none
          batchList.take itemIndex ++
            revertedParent :: (children ++ batchList.drop (itemIndex + 1))

/-! ## Store commit (src/App.tsx) -/

/-- The note prefix `newTrans.note ? `${newTrans.note} ` : ''`
(src/App.tsx line 81). -/
def notePreOf (n : NewTransaction) : String :=
  if n.note != "" then n.note ++ " " else ""

/-- The full-offset rewrite of a target (src/App.tsx line 91). -/
def offsetFull (n : NewTransaction) (t : Transaction) : Transaction :=
  { t with amount := 0,
           note := t.note ++ " (已全额抵扣: " ++ typeName n.type ++ " " ++
             numStr n.amount ++ ")" }

/-- The partial-offset rewrite of a target (src/App.tsx line 93). -/
def offsetPartial (n : NewTransaction) (t : Transaction) : Transaction :=
  { t with amount := t.amount - n.amount,
           note := t.note ++ " (抵扣: " ++ typeName n.type ++ " " ++
             numStr n.amount ++ " " ++ notePreOf n ++ ")" }

/-- Fresh ids for a normal (non-merge) insertion: `(timestamp + index)`
(src/App.tsx lines 115-119). -/
def withIds (ts : Nat) (l : List NewTransaction) : List Transaction :=
  l.enum.map (fun p =>
    { id := toString (ts + p.1), amount := p.2.amount, type := p.2.type,
      categoryId := p.2.categoryId, date := p.2.date, note := p.2.note })

/-- `addTransaction` (src/App.tsx lines 76-122).  The merge/offset branch
runs when the target id is truthy and exactly one transaction is being
saved; otherwise all payloads are appended with fresh ids.  `ts` models
`Date.now()`. -/
def addTransaction (transactions : List Transaction)
    (newTransactions : List NewTransaction)
    (mergeTargetId : Option String) (ts : Nat) : List Transaction :=
  match mergeTargetId, newTransactions with
  | some tid, [newTrans] =>
    if tid != "" then
      let offsetAmount := newTrans.amount
      let updatedTransactions := transactions.map (fun t =>
        if t.id == tid then
          if t.amount - offsetAmount ≤ 0 then offsetFull newTrans t
          else offsetPartial newTrans t
        else t)
      match transactions.find? (fun t => t.id == tid) with
      | some target =>
        if offsetAmount > target.amount then
          let remainderTrans : Transaction :=
            { id := toString ts, amount := offsetAmount - target.amount,
              type := newTrans.type, categoryId := newTrans.categoryId,
              date := newTrans.date, note := newTrans.note ++ " (抵扣剩余)" }
          updatedTransactions.filter (fun t => t.amount > 0) ++ [remainderTrans]
        else
          updatedTransactions.filter (fun t => t.amount > 0)
      | none => updatedTransactions.filter (fun t => t.amount > 0)
    else
      transactions ++ withIds ts newTransactions
  | _, _ => transactions ++ withIds ts newTransactions

/-! ## Batch save flows (src/constants.ts) -/

/-- Stripping the batch-only fields before an `onSave`
(src/constants.ts lines 234 and 375). -/
def stripBatch (t : BatchTransaction) : NewTransaction :=
  { amount := t.amount, type := t.type, categoryId := t.categoryId,
    date := t.date, note := t.note }

/-- Result of `handleSaveSingleBatchItem`: the remaining buffer, the new
store and whether the amount-validation toast fired. -/
structure SaveSingleResult where
  batchList : List BatchTransaction
  transactions : List Transaction
  toastError : Bool
deriving Repr

/-- `handleSaveSingleBatchItem` (src/constants.ts lines 224-242): save one
staged item through `onSave` (= `addTransaction`) and drop it from the
buffer; items with non-positive amount are rejected with an error toast. -/
def handleSaveSingleBatchItem (ts : Nat) (tempId : String)
    (batchList : List BatchTransaction) (transactions : List Transaction) :
    SaveSingleResult :=
  match batchList.find? (fun t => t.tempId == tempId) with
  | none => ⟨batchList, transactions, false⟩
  | some item =>
    if item.amount ≤ 0 then ⟨batchList, transactions, true⟩
    else
      ⟨handleDeleteBatchItem tempId batchList,
       addTransaction transactions [stripBatch item] item.mergeTargetId ts,
       false⟩

/-- Result of `handleSaveAllBatch`: the new store and whether the
amount-validation toast fired. -/
structure SaveAllResult where
  transactions : List Transaction
  toastError : Bool
deriving Repr

/-- `handleSaveAllBatch` (src/constants.ts lines 363-384): keep the
positive-amount items, issue one normal `onSave` for the items without a
merge target (if any), then one merge `onSave` per merge-targeted item.
Every `onSave` is App's `addTransaction` (src/App.tsx 76-122), a closure
over the `transactions` array captured at render, and it calls
`setTransactions` with a plain value (src/App.tsx 108, 110, 120), not a
functional updater.  Within this single synchronous handler all calls
therefore read the same pre-handler store, and React — and the
write-through `localStorage.setItem` (src/App.tsx 31-32) — keep only the
last call's array.  The committed store is thus the LAST `onSave`'s
result applied to the pre-handler store: the final merged item's save
when any merge-targeted item exists (earlier offsets and the plain
inserts are discarded), otherwise the single plain-items save.
Successive `Date.now()` values are modelled as `ts` for the plain call
and `ts + 1 + i` for the i-th merged call. -/
def handleSaveAllBatch (ts : Nat) (batchList : List BatchTransaction)
    (transactions : List Transaction) : SaveAllResult :=
  let validItems := batchList.filter (fun t => t.amount > 0)
  if validItems.isEmpty then
    ⟨transactions, !batchList.isEmpty⟩
  else
    let regularItems := validItems.filter (fun t => !optTruthy t.mergeTargetId)
    let mergedItems := validItems.filter (fun t => optTruthy t.mergeTargetId)
    match mergedItems.enum.getLast? with
    | some p =>
      ⟨addTransaction transactions [stripBatch p.2] p.2.mergeTargetId
        (ts + 1 + p.1), false⟩
    | none =>
      if regularItems.isEmpty then ⟨transactions, false⟩
      else
        ⟨addTransaction transactions (regularItems.map stripBatch) none ts,
         false⟩

/-! ## The merge-history invariant (spec section 3) -/

mutual
/-- A staged transaction carries a non-empty `mergedChildren` list exactly
when it carries an `originalAmount`/`originalNote` snapshot, recursively
through the absorbed children. -/
def BatchInv : BatchTransaction → Bool
  | .mk c none => c.originalAmount.isNone && c.originalNote.isNone
  | .mk c (some l) =>
      !l.isEmpty && c.originalAmount.isSome && c.originalNote.isSome &&
        BatchInvList l

/-- `BatchInv` holding of every element of a list. -/
def BatchInvList : List BatchTransaction → Bool
  | [] => true
  | t :: ts => BatchInv t && BatchInvList ts
end

/-- The whole batch buffer satisfies the merge-history invariant. -/
abbrev BufferInv (l : List BatchTransaction) : Prop := BatchInvList l = true

/-! ## Basic lemmas about the embedding -/

theorem core_mk (c : TxCore) (m : Option (List BatchTransaction)) :
    (BatchTransaction.mk c m).core = c := rfl

theorem mergedChildren_mk (c : TxCore) (m : Option (List BatchTransaction)) :
    (BatchTransaction.mk c m).mergedChildren = m := rfl

theorem tempId_mk (c : TxCore) (m : Option (List BatchTransaction)) :
    (BatchTransaction.mk c m).tempId = c.tempId := rfl

theorem amount_mk (c : TxCore) (m : Option (List BatchTransaction)) :
    (BatchTransaction.mk c m).amount = c.amount := rfl

theorem type_mk (c : TxCore) (m : Option (List BatchTransaction)) :
    (BatchTransaction.mk c m).type = c.type := rfl

theorem note_mk (c : TxCore) (m : Option (List BatchTransaction)) :
    (BatchTransaction.mk c m).note = c.note := rfl

theorem batchInvList_iff (l : List BatchTransaction) :
    BatchInvList l = true ↔ ∀ t ∈ l, BatchInv t = true := by
  induction l with
  | nil => simp [BatchInvList]
  | cons t ts ih =>
    simp [BatchInvList, Bool.and_eq_true, ih, List.forall_mem_cons]

theorem handleSelect_unsaved_eq (l : List BatchTransaction)
    (S T : BatchTransaction)
    (hS : l.find? (fun t => t.tempId == S.tempId) = some S)
    (hT : l.find? (fun t => t.tempId == T.tempId) = some T) :
    handleSelectBatchMergeTarget (some S.tempId) T.tempId true l
      = (l.filter (fun t => t.tempId != S.tempId)).map
          (fun t => if t.tempId == T.tempId then mergeUpdatedTarget S T
                    else t) := by
  simp only [handleSelectBatchMergeTarget, hS, hT, if_true]

theorem mergeBaseTarget_amount (T : BatchTransaction) :
    (mergeBaseTarget T).amount = T.amount := by
  obtain ⟨c, m⟩ := T; cases m <;> rfl

theorem mergeBaseTarget_note (T : BatchTransaction) :
    (mergeBaseTarget T).note = T.note := by
  obtain ⟨c, m⟩ := T; cases m <;> rfl

theorem mergeBaseTarget_type (T : BatchTransaction) :
    (mergeBaseTarget T).type = T.type := by
  obtain ⟨c, m⟩ := T; cases m <;> rfl

theorem mergeBaseTarget_tempId (T : BatchTransaction) :
    (mergeBaseTarget T).tempId = T.tempId := by
  obtain ⟨c, m⟩ := T; cases m <;> rfl

theorem mergeBaseTarget_childrenD (T : BatchTransaction) :
    (mergeBaseTarget T).mergedChildren.getD [] = T.mergedChildren.getD [] := by
  obtain ⟨c, m⟩ := T; cases m <;> rfl

theorem mergeUpdatedTarget_same_fields (S T : BatchTransaction)
    (hkind : S.type = T.type) :
    (mergeUpdatedTarget S T).amount = T.amount + S.amount ∧
    (mergeUpdatedTarget S T).note =
      (if T.note = "" then S.note else T.note ++ " + " ++ S.note) ∧
    (mergeUpdatedTarget S T).mergedChildren =
      some (T.mergedChildren.getD [] ++ [S]) ∧
    (mergeUpdatedTarget S T).tempId = T.tempId ∧
    (mergeUpdatedTarget S T).type = T.type := by
  have hcond : S.type = (mergeBaseTarget T).type := by
    rw [mergeBaseTarget_type]; exact hkind
  obtain ⟨c, m⟩ := T
  cases m with
  | none =>
    simp only [mergeUpdatedTarget, if_pos hcond]
    refine ⟨rfl, ?_, rfl, rfl, rfl⟩
    simp only [mergeBaseTarget, BatchTransaction.mergedChildren,
      BatchTransaction.note, BatchTransaction.core, bne_iff_ne, ne_eq,
      ite_not]
  | some l =>
    simp only [mergeUpdatedTarget, if_pos hcond]
    refine ⟨rfl, ?_, rfl, rfl, rfl⟩
    simp only [mergeBaseTarget, BatchTransaction.mergedChildren,
      BatchTransaction.note, BatchTransaction.core, bne_iff_ne, ne_eq,
      ite_not]

theorem mergeUpdatedTarget_offset_fields (S T : BatchTransaction)
    (hkind : S.type ≠ T.type) :
    (mergeUpdatedTarget S T).amount =
      (if T.amount - S.amount > 0 then T.amount - S.amount else 0) ∧
    (mergeUpdatedTarget S T).note =
      T.note ++ " (抵扣" ++ typeName S.type ++ " " ++ numStr S.amount ++
        ": " ++ S.note ++ ")" ∧
    (mergeUpdatedTarget S T).mergedChildren =
      some (T.mergedChildren.getD [] ++ [S]) ∧
    (mergeUpdatedTarget S T).tempId = T.tempId ∧
    (mergeUpdatedTarget S T).type = T.type := by
  have hcond : ¬ (S.type = (mergeBaseTarget T).type) := by
    rw [mergeBaseTarget_type]; exact hkind
  obtain ⟨c, m⟩ := T
  cases m with
  | none =>
    simp only [mergeUpdatedTarget, if_neg hcond]
    exact ⟨rfl, by simp [mergeBaseTarget, BatchTransaction.note,
      BatchTransaction.mergedChildren, BatchTransaction.core,
      String.append_assoc], rfl, rfl, rfl⟩
  | some l =>
    simp only [mergeUpdatedTarget, if_neg hcond]
    exact ⟨rfl, by simp [mergeBaseTarget, BatchTransaction.note,
      BatchTransaction.mergedChildren, BatchTransaction.core,
      String.append_assoc], rfl, rfl, rfl⟩

theorem mem_mergeResult_ne_source (l : List BatchTransaction)
    (act tgt : String) (U : BatchTransaction) (hUt : U.tempId ≠ act) :
    ∀ u ∈ (l.filter (fun t => t.tempId != act)).map
        (fun t => if t.tempId == tgt then U else t), u.tempId ≠ act := by
  intro u hu
  rcases List.mem_map.1 hu with ⟨t, ht, rfl⟩
  rcases List.mem_filter.1 ht with ⟨-, hpt⟩
  by_cases h : t.tempId == tgt
  · simpa [h] using hUt
  · simpa [h] using bne_iff_ne.mp hpt

/-! ## Concrete staged items used by witnesses and counterexamples -/

def itemA : BatchTransaction := freshBatchItem "a" 100 .expense "c1" "d1" "lunch"
def itemB : BatchTransaction := freshBatchItem "b" 50 .expense "c2" "d2" "dinner"
def itemI : BatchTransaction := freshBatchItem "i" 80 .income "c3" "d3" "refund"

/-- C1: For every two staged transactions S and T of the same kind in the
batch buffer, merging S into T sets T's amount to T.amount + S.amount, sets
T's note to the concatenation of the two notes joined by " + " (or to
S.note when T's note is empty), appends S to T's absorbedChildren
(`mergedChildren`), and removes S from the buffer; every other item is kept
unchanged in place. -/
theorem c1_merge_same_kind (batchList : List BatchTransaction)
    (S T : BatchTransaction)
    (hS : batchList.find? (fun t => t.tempId == S.tempId) = some S)
    (hT : batchList.find? (fun t => t.tempId == T.tempId) = some T)
    (hne : S.tempId ≠ T.tempId)
    (hkind : S.type = T.type) :
    ∃ T' : BatchTransaction,
      handleSelectBatchMergeTarget (some S.tempId) T.tempId true batchList
        = (batchList.filter (fun t => t.tempId != S.tempId)).map
            (fun t => if t.tempId == T.tempId then T' else t) ∧
      T'.amount = T.amount + S.amount ∧
      T'.note = (if T.note = "" then S.note
                 else T.note ++ " + " ++ S.note) ∧
      T'.mergedChildren = some (T.mergedChildren.getD [] ++ [S]) ∧
      T'.tempId = T.tempId ∧
      ∀ u ∈ handleSelectBatchMergeTarget (some S.tempId) T.tempId true
          batchList, u.tempId ≠ S.tempId := by
  obtain ⟨ha, hn, hc, ht, -⟩ := mergeUpdatedTarget_same_fields S T hkind
  refine ⟨mergeUpdatedTarget S T, handleSelect_unsaved_eq _ S T hS hT,
    ha, hn, hc, ht, ?_⟩
  rw [handleSelect_unsaved_eq _ S T hS hT]
  exact mem_mergeResult_ne_source _ _ _ _ (by rw [ht]; exact hne.symm)

/-- Witness for C1 at the spec scenario: staged expense A (amount 100)
merged into staged expense B (amount 50). -/
theorem c1_merge_same_kind_witness :
    ∃ T' : BatchTransaction,
      handleSelectBatchMergeTarget (some itemA.tempId) itemB.tempId true
          [itemA, itemB]
        = ([itemA, itemB].filter (fun t => t.tempId != itemA.tempId)).map
            (fun t => if t.tempId == itemB.tempId then T' else t) ∧
      T'.amount = itemB.amount + itemA.amount ∧
      T'.note = (if itemB.note = "" then itemA.note
                 else itemB.note ++ " + " ++ itemA.note) ∧
      T'.mergedChildren = some (itemB.mergedChildren.getD [] ++ [itemA]) ∧
      T'.tempId = itemB.tempId ∧
      ∀ u ∈ handleSelectBatchMergeTarget (some itemA.tempId) itemB.tempId
          true [itemA, itemB], u.tempId ≠ itemA.tempId :=
  c1_merge_same_kind [itemA, itemB] itemA itemB (by rfl) (by rfl)
    (by decide) rfl

/-- C2: For every two staged transactions S and T of opposite kinds in the
batch buffer, offsetting S into T sets T's amount to T.amount - S.amount
when S.amount ≤ T.amount and to exactly 0 otherwise (floored, never
negative); S is appended to T's absorbedChildren and removed from the
buffer.  The buffer after the operation is exactly the original list with
S filtered out and T replaced, so the excess beyond T's amount is not
preserved anywhere in this staged-target path. -/
theorem c2_offset_floored (batchList : List BatchTransaction)
    (S T : BatchTransaction)
    (hS : batchList.find? (fun t => t.tempId == S.tempId) = some S)
    (hT : batchList.find? (fun t => t.tempId == T.tempId) = some T)
    (hne : S.tempId ≠ T.tempId)
    (hkind : S.type ≠ T.type) :
    ∃ T' : BatchTransaction,
      handleSelectBatchMergeTarget (some S.tempId) T.tempId true batchList
        = (batchList.filter (fun t => t.tempId != S.tempId)).map
            (fun t => if t.tempId == T.tempId then T' else t) ∧
      T'.amount = (if S.amount ≤ T.amount then T.amount - S.amount else 0) ∧
      T'.mergedChildren = some (T.mergedChildren.getD [] ++ [S]) ∧
      T'.tempId = T.tempId ∧
      ∀ u ∈ handleSelectBatchMergeTarget (some S.tempId) T.tempId true
          batchList, u.tempId ≠ S.tempId := by
  obtain ⟨ha, -, hc, ht, -⟩ := mergeUpdatedTarget_offset_fields S T hkind
  have ha' : (mergeUpdatedTarget S T).amount =
      (if S.amount ≤ T.amount then T.amount - S.amount else 0) := by
    rw [ha]
    rcases lt_trichotomy S.amount T.amount with h | h | h
    · rw [if_pos (sub_pos.mpr h), if_pos h.le]
    · rw [if_neg (by rw [h, sub_self]; exact lt_irrefl 0), if_pos h.le, h,
        sub_self]
    · rw [if_neg (not_lt.mpr (sub_nonpos.mpr h.le)),
        if_neg (not_le.mpr h)]
  refine ⟨mergeUpdatedTarget S T, handleSelect_unsaved_eq _ S T hS hT,
    ha', hc, ht, ?_⟩
  rw [handleSelect_unsaved_eq _ S T hS hT]
  exact mem_mergeResult_ne_source _ _ _ _ (by rw [ht]; exact hne.symm)

/-- Witness for C2 at the spec scenario: staged income A (amount 80)
offset into staged expense B (amount 50); B is floored to 0. -/
theorem c2_offset_floored_witness :
    ∃ T' : BatchTransaction,
      handleSelectBatchMergeTarget (some itemI.tempId) itemB.tempId true
          [itemI, itemB]
        = ([itemI, itemB].filter (fun t => t.tempId != itemI.tempId)).map
            (fun t => if t.tempId == itemB.tempId then T' else t) ∧
      T'.amount = (if itemI.amount ≤ itemB.amount
                   then itemB.amount - itemI.amount else 0) ∧
      T'.mergedChildren = some (itemB.mergedChildren.getD [] ++ [itemI]) ∧
      T'.tempId = itemB.tempId ∧
      ∀ u ∈ handleSelectBatchMergeTarget (some itemI.tempId) itemB.tempId
          true [itemI, itemB], u.tempId ≠ itemI.tempId :=
  c2_offset_floored [itemI, itemB] itemI itemB (by rfl) (by rfl)
    (by decide) (by decide)

/-! ## List lemmas for the split round trip -/

theorem find?_append_of_forall_false (p : α → Bool) (l₁ l₂ : List α)
    (h : ∀ u ∈ l₁, p u = false) : (l₁ ++ l₂).find? p = l₂.find? p := by
  induction l₁ with
  | nil => rfl
  | cons a as ih =>
    have ha := h a (List.mem_cons_self a as)
    simp only [List.cons_append, List.find?, ha]
    exact ih (fun u hu => h u (List.mem_cons_of_mem a hu))

theorem findIndex_append_cons (p : α → Bool) (l₁ l₂ : List α) (a : α)
    (h₁ : ∀ u ∈ l₁, p u = false) (ha : p a = true) :
    findIndex p (l₁ ++ a :: l₂) = some l₁.length := by
  induction l₁ with
  | nil => simp [findIndex, ha]
  | cons b bs ih =>
    have hb := h₁ b (List.mem_cons_self b bs)
    have ih' := ih (fun u hu => h₁ u (List.mem_cons_of_mem b hu))
    simp [findIndex, hb, ih']

theorem get?_append_cons (l₁ l₂ : List α) (a : α) :
    (l₁ ++ a :: l₂).get? l₁.length = some a := by
  induction l₁ with
  | nil => rfl
  | cons b bs ih => simpa using ih

theorem map_replace_id (l : List BatchTransaction) (tgt : String)
    (U : BatchTransaction) (h : ∀ u ∈ l, u.tempId ≠ tgt) :
    l.map (fun t => if t.tempId == tgt then U else t) = l := by
  rw [show l.map (fun t => if t.tempId == tgt then U else t) = l.map id from
    List.map_congr_left (fun a ha => by simp [h a ha]), List.map_id]

theorem mergeUpdatedTarget_tempId (S T : BatchTransaction) :
    (mergeUpdatedTarget S T).tempId = T.tempId := by
  by_cases h : S.type = T.type
  · exact (mergeUpdatedTarget_same_fields S T h).2.2.2.1
  · exact (mergeUpdatedTarget_offset_fields S T h).2.2.2.1

theorem mergeUpdatedTarget_children (S T : BatchTransaction) :
    (mergeUpdatedTarget S T).mergedChildren =
      some (T.mergedChildren.getD [] ++ [S]) := by
  by_cases h : S.type = T.type
  · exact (mergeUpdatedTarget_same_fields S T h).2.2.1
  · exact (mergeUpdatedTarget_offset_fields S T h).2.2.1

theorem mergeUpdatedTarget_snapshot (S T : BatchTransaction)
    (hT0 : T.mergedChildren = none) :
    (mergeUpdatedTarget S T).originalAmount = some T.amount ∧
    (mergeUpdatedTarget S T).originalNote = some T.note := by
  obtain ⟨c, m⟩ := T
  simp only [mergedChildren_mk] at hT0
  subst hT0
  by_cases h : S.type = (mergeBaseTarget (BatchTransaction.mk c none)).type
  · constructor <;> (simp only [mergeUpdatedTarget, if_pos h]; rfl)
  · constructor <;> (simp only [mergeUpdatedTarget, if_neg h]; rfl)

theorem handleSplitBatchItem_decomp (l₁ l₂ : List BatchTransaction)
    (U : BatchTransaction) (children : List BatchTransaction)
    (h₁ : ∀ u ∈ l₁, u.tempId ≠ U.tempId)
    (hc : U.mergedChildren = some children) (hcne : children ≠ []) :
    handleSplitBatchItem U.tempId (l₁ ++ U :: l₂)
      = l₁ ++ (BatchTransaction.mk
          { U.core with
              amount := U.core.originalAmount.getD U.core.amount,
              note := U.core.originalNote.getD U.core.note,
              originalAmount := none, originalNote := none } none)
        :: (children ++ l₂) := by
  have hidx : findIndex (fun t => t.tempId == U.tempId) (l₁ ++ U :: l₂)
      = some l₁.length :=
    findIndex_append_cons _ _ _ _ (fun u hu => by simp [h₁ u hu]) (by simp)
  have hdrop : (l₁ ++ U :: l₂).drop (l₁.length + 1) = l₂ := by
    rw [show l₁ ++ U :: l₂ = (l₁ ++ [U]) ++ l₂ by simp,
      show l₁.length + 1 = (l₁ ++ [U]).length by simp]
    exact List.drop_left _ _
  have htake : (l₁ ++ U :: l₂).take l₁.length = l₁ := List.take_left _ _
  have hempty : children.isEmpty = false := by
    cases children with
    | nil => exact absurd rfl hcne
    | cons a as => rfl
  simp only [handleSplitBatchItem, hidx, get?_append_cons, hc, hempty,
    Bool.false_eq_true, if_false, htake, hdrop]

theorem mergeUpdatedTarget_revert (S T : BatchTransaction)
    (hT0 : T.mergedChildren = none)
    (hOA : T.originalAmount = none) (hON : T.originalNote = none) :
    BatchTransaction.mk
      { (mergeUpdatedTarget S T).core with
          amount := (mergeUpdatedTarget S T).core.originalAmount.getD
            (mergeUpdatedTarget S T).core.amount,
          note := (mergeUpdatedTarget S T).core.originalNote.getD
            (mergeUpdatedTarget S T).core.note,
          originalAmount := none, originalNote := none } none = T := by
  obtain ⟨c, m⟩ := T
  simp only [mergedChildren_mk] at hT0
  subst hT0
  simp only [BatchTransaction.originalAmount, BatchTransaction.originalNote,
    core_mk] at hOA hON
  obtain ⟨tid, am, tty, cid, dt, nt, mtid, oa, onn⟩ := c
  simp only at hOA hON
  subst hOA
  subst hON
  by_cases h : S.type =
      (mergeBaseTarget (BatchTransaction.mk
        ⟨tid, am, tty, cid, dt, nt, mtid, none, none⟩ none)).type
  · simp only [mergeUpdatedTarget, if_pos h]; rfl
  · simp only [mergeUpdatedTarget, if_neg h]; rfl

/-- C4: For a staged target T with no prior merge history that absorbs a
single source S by one merge or offset in which no flooring occurred,
splitting the result restores T exactly (amount, note, cleared
absorbedChildren and snapshot) and re-inserts S as an independent staged
item immediately after T's position in the buffer:
split after merge yields the original T followed by S. -/
theorem c4_split_merge_round_trip
    (pre post : List BatchTransaction) (S T : BatchTransaction)
    (hS : (pre ++ T :: post).find? (fun t => t.tempId == S.tempId) = some S)
    (hTpre : ∀ u ∈ pre, u.tempId ≠ T.tempId)
    (hTpost : ∀ u ∈ post, u.tempId ≠ T.tempId)
    (hne : S.tempId ≠ T.tempId)
    (hT0 : T.mergedChildren = none)
    (hOA : T.originalAmount = none) (hON : T.originalNote = none)
    (hnofloor : S.type = T.type ∨ S.amount ≤ T.amount) :
    handleSplitBatchItem T.tempId
        (handleSelectBatchMergeTarget (some S.tempId) T.tempId true
          (pre ++ T :: post))
      = pre.filter (fun t => t.tempId != S.tempId) ++ T ::
          S :: post.filter (fun t => t.tempId != S.tempId) := by
  have hT : (pre ++ T :: post).find? (fun t => t.tempId == T.tempId)
      = some T := by
    rw [find?_append_of_forall_false _ _ _
      (fun u hu => by simp [hTpre u hu])]
    simp [List.find?]
  rw [handleSelect_unsaved_eq _ S T hS hT]
  have hUt : (mergeUpdatedTarget S T).tempId = T.tempId :=
    mergeUpdatedTarget_tempId S T
  have hUc : (mergeUpdatedTarget S T).mergedChildren = some [S] := by
    rw [mergeUpdatedTarget_children, hT0]; rfl
  have hqT : (fun t : BatchTransaction => t.tempId != S.tempId) T = true := by
    simp [Ne.symm hne]
  have hfilter : (pre ++ T :: post).filter
        (fun t => t.tempId != S.tempId)
      = pre.filter (fun t => t.tempId != S.tempId) ++ T ::
          post.filter (fun t => t.tempId != S.tempId) := by
    rw [List.filter_append, List.filter_cons, if_pos hqT]
  rw [hfilter, List.map_append, List.map_cons]
  have hmappre : (pre.filter (fun t => t.tempId != S.tempId)).map
      (fun t => if t.tempId == T.tempId then mergeUpdatedTarget S T else t)
      = pre.filter (fun t => t.tempId != S.tempId) :=
    map_replace_id _ _ _
      (fun u hu => hTpre u (List.mem_of_mem_filter hu))
  have hmappost : (post.filter (fun t => t.tempId != S.tempId)).map
      (fun t => if t.tempId == T.tempId then mergeUpdatedTarget S T else t)
      = post.filter (fun t => t.tempId != S.tempId) :=
    map_replace_id _ _ _
      (fun u hu => hTpost u (List.mem_of_mem_filter hu))
  have hfT : (if T.tempId == T.tempId then mergeUpdatedTarget S T else T)
      = mergeUpdatedTarget S T := by simp
  rw [hmappre, hmappost, hfT]
  have hdecomp := handleSplitBatchItem_decomp
    (pre.filter (fun t => t.tempId != S.tempId))
    (post.filter (fun t => t.tempId != S.tempId))
    (mergeUpdatedTarget S T) [S]
    (fun u hu => by
      rw [hUt]
      exact hTpre u (List.mem_of_mem_filter hu))
    hUc (by simp)
  rw [hUt] at hdecomp
  rw [hdecomp, mergeUpdatedTarget_revert S T hT0 hOA hON]
  rfl

/-- Witness for C4: expense A (amount 100) merged into fresh expense B
(amount 50) and then split restores the buffer to B followed by A. -/
theorem c4_split_merge_round_trip_witness :
    handleSplitBatchItem itemB.tempId
        (handleSelectBatchMergeTarget (some itemA.tempId) itemB.tempId true
          ([itemA] ++ itemB :: []))
      = [itemA].filter (fun t => t.tempId != itemA.tempId) ++ itemB ::
          itemA :: List.filter (fun t => t.tempId != itemA.tempId) [] :=
  c4_split_merge_round_trip [itemA] [] itemA itemB (by rfl) (by decide)
    (by simp) (by decide) rfl rfl rfl (Or.inl rfl)

/-- C8 counterexample: a self-merge of the only staged item does not leave
the operand unchanged — it removes the item from the buffer entirely
(the source filter runs before the target replacement). -/
theorem c8_counterexample :
    handleSelectBatchMergeTarget (some itemA.tempId) itemA.tempId true
        [itemA] = [] ∧
    [itemA] ≠ ([] : List BatchTransaction) :=
  ⟨rfl, by simp⟩

/-- C8 (amended): a staged-target merge whose target id is absent from the
buffer, or whose source id is absent, leaves the buffer unchanged (a silent
no-op, with no InvalidMergeTarget error surfaced); a self-merge instead
removes the item from the buffer. -/
theorem c8_amended_invalid_target :
    (∀ (l : List BatchTransaction) (active targetId : String),
      l.find? (fun t => t.tempId == targetId) = none →
      handleSelectBatchMergeTarget (some active) targetId true l = l) ∧
    (∀ (l : List BatchTransaction) (active targetId : String),
      l.find? (fun t => t.tempId == active) = none →
      handleSelectBatchMergeTarget (some active) targetId true l = l) ∧
    (∀ (l : List BatchTransaction) (tid : String),
      handleSelectBatchMergeTarget (some tid) tid true l
        = l.filter (fun t => t.tempId != tid)) := by
  refine ⟨?_, ?_, ?_⟩
  · intro l active targetId h
    cases hs : l.find? (fun t => t.tempId == active) with
    | none => simp only [handleSelectBatchMergeTarget, hs, h, if_true]
    | some s => simp only [handleSelectBatchMergeTarget, hs, h, if_true]
  · intro l active targetId h
    simp only [handleSelectBatchMergeTarget, h, if_true]
  · intro l tid
    cases hs : l.find? (fun t => t.tempId == tid) with
    | none =>
      simp only [handleSelectBatchMergeTarget, hs, if_true]
      have hmem := List.find?_eq_none.mp hs
      exact (List.filter_eq_self.mpr (fun a ha => by
        simpa using hmem a ha)).symm
    | some s =>
      simp only [handleSelectBatchMergeTarget, hs, if_true]
      exact map_replace_id _ _ _
        (fun u hu => by
          have := List.mem_filter.1 hu
          simpa using this.2)

/-- Witness for C8: a stale target id leaves a two-item buffer unchanged. -/
theorem c8_amended_invalid_target_witness :
    ([itemA, itemB].find? (fun t => t.tempId == "zzz") = none) ∧
    handleSelectBatchMergeTarget (some itemA.tempId) "zzz" true
        [itemA, itemB] = [itemA, itemB] :=
  ⟨by rfl,
   c8_amended_invalid_target.1 [itemA, itemB] itemA.tempId "zzz" (by rfl)⟩

/-! ## Lemmas about the addTransaction merge path -/

theorem mem_filter_amount_pos (l : List Transaction) :
    ∀ t ∈ l.filter (fun t => t.amount > 0), 0 < t.amount := by
  intro t ht
  simpa using (List.mem_filter.1 ht).2

theorem addTransaction_merge_positive (store : List Transaction)
    (n : NewTransaction) (tid : String) (ts : Nat) (htid : tid ≠ "") :
    ∀ t ∈ addTransaction store [n] (some tid) ts, 0 < t.amount := by
  have hbne : (tid != "") = true := bne_iff_ne.mpr htid
  intro t ht
  simp only [addTransaction, hbne, if_true] at ht
  cases hf : store.find? (fun u => u.id == tid) with
  | some target =>
    simp only [hf] at ht
    by_cases hgt : n.amount > target.amount
    · rw [if_pos hgt] at ht
      rcases List.mem_append.1 ht with h | h
      · exact mem_filter_amount_pos _ t h
      · rcases List.mem_singleton.1 h with rfl
        exact sub_pos.mpr hgt
    · rw [if_neg hgt] at ht
      exact mem_filter_amount_pos _ t ht
  | none =>
    simp only [hf] at ht
    exact mem_filter_amount_pos _ t ht

theorem addTransaction_no_target_id (store : List Transaction)
    (n : NewTransaction) (tid : String) (ts : Nat) (htid : tid ≠ "")
    (hts : toString ts ≠ tid)
    (hle : ∀ t ∈ store, t.id = tid → t.amount ≤ n.amount) :
    ∀ u ∈ addTransaction store [n] (some tid) ts, u.id ≠ tid := by
  have hbne : (tid != "") = true := bne_iff_ne.mpr htid
  have hfil : ∀ u ∈ (store.map (fun t =>
      if t.id == tid then
        if t.amount - n.amount ≤ 0 then offsetFull n t else offsetPartial n t
      else t)).filter (fun t => t.amount > 0), u.id ≠ tid := by
    intro u hu
    obtain ⟨humem, hupos⟩ := List.mem_filter.1 hu
    rcases List.mem_map.1 humem with ⟨t, htmem, rfl⟩
    by_cases hid : t.id = tid
    · have hfull : t.amount - n.amount ≤ 0 :=
        sub_nonpos.mpr (hle t htmem hid)
      simp only [hid, beq_self_eq_true, if_true, if_pos hfull] at hupos ⊢
      exact absurd (by simp [offsetFull] at hupos) (fun h => h)
    · simp only [hid, beq_iff_eq, if_neg hid]
      exact hid
  intro u hu
  simp only [addTransaction, hbne, if_true] at hu
  cases hf : store.find? (fun t => t.id == tid) with
  | some target =>
    simp only [hf] at hu
    by_cases hgt : n.amount > target.amount
    · rw [if_pos hgt] at hu
      rcases List.mem_append.1 hu with h | h
      · exact hfil u h
      · rcases List.mem_singleton.1 h with rfl
        exact hts
    · rw [if_neg hgt] at hu
      exact hfil u hu
  | none =>
    simp only [hf] at hu
    exact hfil u hu

theorem addTransaction_remainder_mem (store : List Transaction)
    (n : NewTransaction) (tid : String) (ts : Nat) (target : Transaction)
    (htid : tid ≠ "")
    (hfind : store.find? (fun t => t.id == tid) = some target)
    (hgt : target.amount < n.amount) :
    ({ id := toString ts, amount := n.amount - target.amount,
       type := n.type, categoryId := n.categoryId, date := n.date,
       note := n.note ++ " (抵扣剩余)" } : Transaction)
      ∈ addTransaction store [n] (some tid) ts := by
  have hbne : (tid != "") = true := bne_iff_ne.mpr htid
  simp only [addTransaction, hbne, if_true, hfind, if_pos hgt]
  exact List.mem_append_right _ (List.mem_singleton.mpr rfl)

/-- C10: after any save carrying a (truthy) merge target id, the
Transaction Store contains no transaction with amount ≤ 0; in particular a
fully-offset target (every stored record bearing the target id has amount
at most the source amount) is removed from the store rather than retained
at amount zero, and previously stored non-positive records are removed by
the same commit. -/
theorem c10_no_nonpositive_after_merge_save (store : List Transaction)
    (n : NewTransaction) (tid : String) (ts : Nat) (htid : tid ≠ "") :
    (∀ t ∈ addTransaction store [n] (some tid) ts, 0 < t.amount) ∧
    (toString ts ≠ tid →
      (∀ t ∈ store, t.id = tid → t.amount ≤ n.amount) →
      ∀ u ∈ addTransaction store [n] (some tid) ts, u.id ≠ tid) :=
  ⟨addTransaction_merge_positive store n tid ts htid,
   fun hts hle => addTransaction_no_target_id store n tid ts htid hts hle⟩

def storeT1 : List Transaction :=
  [{ id := "t1", amount := 100, type := .income, categoryId := "c",
     date := "d", note := "inc" }]

def newExpense120 : NewTransaction :=
  { amount := 120, type := .expense, categoryId := "cat", date := "dd",
    note := "src" }

/-- Witness for C10: saving an expense of 120 against the persisted income
of 100 leaves a store whose records all have positive amounts and none of
which carries the target id. -/
theorem c10_no_nonpositive_after_merge_save_witness :
    (∀ t ∈ addTransaction storeT1 [newExpense120] (some "t1") 999,
      0 < t.amount) ∧
    (∀ u ∈ addTransaction storeT1 [newExpense120] (some "t1") 999,
      u.id ≠ "t1") := by
  obtain ⟨h1, h2⟩ :=
    c10_no_nonpositive_after_merge_save storeT1 newExpense120 "t1" 999
      (by decide)
  exact ⟨h1, h2 (by decide) (by decide)⟩

/-- C3 counterexample: single-entry save of expense 120 against persisted
income 100 (id "t1").  The claim says the persisted target is retained
with amount zero; in fact no record with the target id (and no zero-amount
record at all) is left in the store — the zero-amount target is dropped by
the positive-amount filter. -/
theorem c3_counterexample :
    ¬ (∃ t ∈ addTransaction storeT1 [newExpense120] (some "t1") 999,
        t.id = "t1" ∧ t.amount = 0) := by decide

/-- C3 (amended): when a single new transaction whose amount exceeds its
persisted merge target's amount is saved, the target is removed from the
store (the zero-amount annotated record is discarded by the
positive-amount filter, so no record with the target id survives), and a
new independent remainder Transaction with amount source.amount -
target.amount and kind/category copied from the source, note annotated
"(抵扣剩余)", is inserted into the Transaction Store. -/
theorem c3_amended_full_offset_remainder (store : List Transaction)
    (n : NewTransaction) (tid : String) (ts : Nat) (target : Transaction)
    (htid : tid ≠ "")
    (hfind : store.find? (fun t => t.id == tid) = some target)
    (huniq : ∀ t ∈ store, t.id = tid → t = target)
    (hgt : target.amount < n.amount)
    (hts : toString ts ≠ tid) :
    (∃ r ∈ addTransaction store [n] (some tid) ts,
       r.id = toString ts ∧ r.amount = n.amount - target.amount ∧
       r.type = n.type ∧ r.categoryId = n.categoryId ∧
       r.note = n.note ++ " (抵扣剩余)") ∧
    (∀ u ∈ addTransaction store [n] (some tid) ts, u.id ≠ tid) := by
  constructor
  · exact ⟨_, addTransaction_remainder_mem store n tid ts target htid
      hfind hgt, rfl, rfl, rfl, rfl, rfl⟩
  · exact addTransaction_no_target_id store n tid ts htid hts
      (fun t ht hid => by rw [huniq t ht hid]; exact hgt.le)

/-- Witness for C3 (amended) at the spec scenario: expense 120 against
persisted income 100. -/
theorem c3_amended_full_offset_remainder_witness :
    (∃ r ∈ addTransaction storeT1 [newExpense120] (some "t1") 999,
       r.id = toString 999 ∧
       r.amount = newExpense120.amount - 100 ∧
       r.type = newExpense120.type ∧
       r.categoryId = newExpense120.categoryId ∧
       r.note = newExpense120.note ++ " (抵扣剩余)") ∧
    (∀ u ∈ addTransaction storeT1 [newExpense120] (some "t1") 999,
       u.id ≠ "t1") :=
  c3_amended_full_offset_remainder storeT1 newExpense120 "t1" 999
    { id := "t1", amount := 100, type := .income, categoryId := "c",
      date := "d", note := "inc" }
    (by decide) (by rfl) (by decide) (by decide) (by decide)

/-! ## The batch save-all flow -/

theorem handleSaveAllBatch_single_merged (ts : Nat)
    (item : BatchTransaction) (store : List Transaction)
    (hpos : 0 < item.amount) (htr : optTruthy item.mergeTargetId = true) :
    (handleSaveAllBatch ts [item] store).transactions
      = addTransaction store [stripBatch item] item.mergeTargetId
          (ts + 1 + 0) := by
  simp only [handleSaveAllBatch, List.filter, decide_eq_true_eq, hpos,
    if_true, htr, Bool.not_true, List.isEmpty_cons, List.enum, decide_True]
  simp [List.enumFrom, htr]

/-- C6 counterexample: in the batch save-all flow, a staged expense of 120
offsetting the persisted income of 100 DOES produce a remainder
transaction of amount 20 in the Transaction Store (the claim says none is
created in this path). -/
theorem c6_counterexample :
    ∃ r ∈ (handleSaveAllBatch 999
        [BatchTransaction.mk
          { tempId := "m", amount := 120, type := .expense,
            categoryId := "cat", date := "dd", note := "src",
            mergeTargetId := some "t1", originalAmount := none,
            originalNote := none } none] storeT1).transactions,
      r.amount = 20 ∧ r.note = "src (抵扣剩余)" := by decide

/-- C6 (amended): in the batch save-all flow, when an offsetting staged
item's amount exceeds its persisted target's amount, a remainder
transaction IS created in the Transaction Store, exactly as in the
single-entry flow — both flows run the same `addTransaction` merge path.
(The path that floors at zero and loses the excess is the staged-to-staged
offset inside the buffer, not the batch commit.) -/
theorem c6_amended_batch_remainder (ts : Nat) (item : BatchTransaction)
    (store : List Transaction) (tid : String) (target : Transaction)
    (hpos : 0 < item.amount)
    (hmt : item.mergeTargetId = some tid) (htid : tid ≠ "")
    (hfind : store.find? (fun t => t.id == tid) = some target)
    (hgt : target.amount < item.amount) :
    ∃ r ∈ (handleSaveAllBatch ts [item] store).transactions,
      r.id = toString (ts + 1 + 0) ∧
      r.amount = item.amount - target.amount ∧
      r.type = item.type ∧ r.categoryId = item.categoryId ∧
      r.note = item.note ++ " (抵扣剩余)" := by
  have htr : optTruthy item.mergeTargetId = true := by
    rw [hmt]; simpa [optTruthy] using htid
  rw [handleSaveAllBatch_single_merged ts item store hpos htr, hmt]
  exact ⟨_, addTransaction_remainder_mem store (stripBatch item) tid
    (ts + 1 + 0) target htid hfind hgt, rfl, rfl, rfl, rfl, rfl⟩

/-- Witness for C6 (amended) at the concrete scenario of the
counterexample. -/
theorem c6_amended_batch_remainder_witness :
    ∃ r ∈ (handleSaveAllBatch 999
        [BatchTransaction.mk
          { tempId := "m", amount := 120, type := .expense,
            categoryId := "cat", date := "dd", note := "src",
            mergeTargetId := some "t1", originalAmount := none,
            originalNote := none } none] storeT1).transactions,
      r.id = toString (999 + 1 + 0) ∧
      r.amount = (120 : Int) - 100 ∧
      r.type = TransactionType.expense ∧ r.categoryId = "cat" ∧
      r.note = "src" ++ " (抵扣剩余)" :=
  c6_amended_batch_remainder 999 _ storeT1 "t1"
    { id := "t1", amount := 100, type := .income, categoryId := "c",
      date := "d", note := "inc" }
    (by decide) rfl (by decide) (by rfl) (by decide)

def zeroItem : BatchTransaction := freshBatchItem "z" 0 .expense "c" "d" ""

/-- C9 counterexample: a buffer holding one positive item and one
zero-amount item has a non-empty discard set and is non-empty, yet
save-all reports no validation failure (the toast fires only when no
valid item remains). -/
theorem c9_counterexample :
    (handleSaveAllBatch 7 [itemB, zeroItem] []).toastError = false ∧
    (∃ t ∈ [itemB, zeroItem], t.amount ≤ 0) ∧
    ([itemB, zeroItem].isEmpty = false) := by decide

/-- C9 (amended): every staged item with amount ≤ 0 is discarded by both
save paths — the batch commit depends only on the positive-amount items,
and the single-item save of a non-positive item leaves the store unchanged
and reports an error — but the save-all validation failure is reported
exactly when no staged item has positive amount and the buffer was
non-empty, not whenever the discard set is non-empty. -/
theorem c9_amended_discard_nonpositive :
    (∀ (ts : Nat) (batchList : List BatchTransaction)
        (store : List Transaction),
      (handleSaveAllBatch ts batchList store).transactions
        = (handleSaveAllBatch ts
            (batchList.filter (fun t => t.amount > 0)) store).transactions) ∧
    (∀ (ts : Nat) (tempId : String) (batchList : List BatchTransaction)
        (store : List Transaction) (item : BatchTransaction),
      batchList.find? (fun t => t.tempId == tempId) = some item →
      item.amount ≤ 0 →
      (handleSaveSingleBatchItem ts tempId batchList store).transactions
          = store ∧
      (handleSaveSingleBatchItem ts tempId batchList store).toastError
          = true) ∧
    (∀ (ts : Nat) (batchList : List BatchTransaction)
        (store : List Transaction),
      (handleSaveAllBatch ts batchList store).toastError
        = ((batchList.filter (fun t => t.amount > 0)).isEmpty &&
            !batchList.isEmpty)) := by
  refine ⟨?_, ?_, ?_⟩
  · intro ts batchList store
    have hv : (batchList.filter (fun t => t.amount > 0)).filter
        (fun t => t.amount > 0) = batchList.filter (fun t => t.amount > 0) := by
      rw [List.filter_filter]
      simp
    by_cases h : (batchList.filter (fun t => t.amount > 0)).isEmpty = true
    · simp [handleSaveAllBatch, hv, h]
    · simp [handleSaveAllBatch, hv, h]
  · intro ts tempId batchList store item hfind hle
    simp [handleSaveSingleBatchItem, hfind, hle]
  · intro ts batchList store
    by_cases h : (batchList.filter (fun t => t.amount > 0)).isEmpty
    · simp only [handleSaveAllBatch, h, if_true, Bool.true_and]
    · have h' : (batchList.filter (fun t => t.amount > 0)).isEmpty
          = false := by
        rwa [Bool.not_eq_true] at h
      simp only [handleSaveAllBatch, h', Bool.false_eq_true, if_false,
        Bool.false_and]
      split
      · rfl
      · split <;> rfl

/-- Witness for C9: the single-item save of the zero-amount staged item
leaves the store untouched and reports the validation error. -/
theorem c9_amended_discard_nonpositive_witness :
    ([zeroItem].find? (fun t => t.tempId == "z") = some zeroItem) ∧
    ((handleSaveSingleBatchItem 7 "z" [zeroItem] storeT1).transactions
        = storeT1 ∧
     (handleSaveSingleBatchItem 7 "z" [zeroItem] storeT1).toastError
        = true) :=
  ⟨by rfl,
   c9_amended_discard_nonpositive.2.1 7 "z" [zeroItem] storeT1 zeroItem
     (by rfl) (by decide)⟩

/-! ## Invariant lemmas -/

theorem batchInv_mk_none (c : TxCore) :
    BatchInv (.mk c none)
      = (c.originalAmount.isNone && c.originalNote.isNone) := rfl

theorem batchInv_mk_some (c : TxCore) (l : List BatchTransaction) :
    BatchInv (.mk c (some l))
      = (!l.isEmpty && c.originalAmount.isSome && c.originalNote.isSome &&
          BatchInvList l) := rfl

theorem batchInvList_append (l₁ l₂ : List BatchTransaction) :
    BatchInvList (l₁ ++ l₂) = (BatchInvList l₁ && BatchInvList l₂) := by
  induction l₁ with
  | nil => simp [BatchInvList]
  | cons t ts ih => simp [BatchInvList, ih, Bool.and_assoc]

theorem bufferInv_iff (l : List BatchTransaction) :
    BufferInv l ↔ ∀ t ∈ l, BatchInv t = true := batchInvList_iff l

theorem batchInv_children (c : TxCore) (l : List BatchTransaction)
    (h : BatchInv (.mk c (some l)) = true) : BatchInvList l = true := by
  rw [batchInv_mk_some, Bool.and_eq_true] at h
  exact h.2

theorem applyField_batchInv (t : BatchTransaction) (f : BatchField)
    (h : BatchInv t = true) : BatchInv (applyField t f) = true := by
  obtain ⟨c, m⟩ := t
  cases m <;> cases f <;>
    simpa [applyField, BatchInv, BatchTransaction.core,
      BatchTransaction.mergedChildren] using h

theorem setMergeTarget_batchInv (t : BatchTransaction) (tid : String)
    (h : BatchInv t = true) :
    BatchInv (.mk { t.core with mergeTargetId := some tid }
      t.mergedChildren) = true := by
  obtain ⟨c, m⟩ := t
  cases m <;>
    simpa [BatchInv, BatchTransaction.core,
      BatchTransaction.mergedChildren] using h

theorem mergeUpdatedTarget_batchInv (S T : BatchTransaction)
    (hS : BatchInv S = true) (hT : BatchInv T = true) :
    BatchInv (mergeUpdatedTarget S T) = true := by
  obtain ⟨c, m⟩ := T
  cases m with
  | none =>
    simp only [mergeUpdatedTarget, mergeBaseTarget,
      BatchTransaction.mergedChildren, BatchTransaction.core,
      BatchTransaction.amount, BatchTransaction.note]
    split <;> simp [BatchInv, BatchInvList, hS]
  | some l =>
    rw [batchInv_mk_some] at hT
    have hT' := hT
    rw [Bool.and_eq_true, Bool.and_eq_true, Bool.and_eq_true] at hT'
    obtain ⟨⟨⟨hne, hoa⟩, hon⟩, hl⟩ := hT'
    simp only [mergeUpdatedTarget, mergeBaseTarget,
      BatchTransaction.mergedChildren, BatchTransaction.core]
    split <;>
      simp [BatchInv, BatchInvList, batchInvList_append, hS, hl, hoa, hon]

/-- C5: the merge-history invariant — a staged transaction has non-empty
absorbedChildren (`mergedChildren`) exactly when it carries an
`originalAmount`/`originalNote` snapshot (recursively through absorbed
children) — holds of freshly added items and is preserved by every buffer
operation: add, field edit, merge/offset target selection (both branches),
split and delete.  Moreover a staged-target merge on a history-free target
captures the target's pre-merge amount and note in the snapshot, and
splitting clears the children and the snapshot simultaneously while
setting amount and note back to exactly the snapshot values. -/
theorem c5_invariant :
    (∀ (tempId : String) (amount : Int) (ty : TransactionType)
        (categoryId date note : String),
      BatchInv (freshBatchItem tempId amount ty categoryId date note)
        = true) ∧
    (∀ (l items : List BatchTransaction), BufferInv l →
      (∀ i ∈ items, BatchInv i = true) →
      BufferInv (addBatchItems items l)) ∧
    (∀ (l : List BatchTransaction) (tid : String) (f : BatchField),
      BufferInv l → BufferInv (handleUpdateBatchItem tid f l)) ∧
    (∀ (l : List BatchTransaction) (a : Option String) (tgt : String)
        (b : Bool),
      BufferInv l → BufferInv (handleSelectBatchMergeTarget a tgt b l)) ∧
    (∀ (l : List BatchTransaction) (tid : String),
      BufferInv l → BufferInv (handleSplitBatchItem tid l)) ∧
    (∀ (l : List BatchTransaction) (tid : String),
      BufferInv l → BufferInv (handleDeleteBatchItem tid l)) ∧
    (∀ S T : BatchTransaction, T.mergedChildren = none →
      (mergeUpdatedTarget S T).originalAmount = some T.amount ∧
      (mergeUpdatedTarget S T).originalNote = some T.note) ∧
    (∀ (l : List BatchTransaction) (tid : String) (idx : Nat)
        (item : BatchTransaction) (children : List BatchTransaction)
        (a : Int) (nt : String),
      findIndex (fun t => t.tempId == tid) l = some idx →
      l.get? idx = some item →
      item.mergedChildren = some children → children ≠ [] →
      item.originalAmount = some a → item.originalNote = some nt →
      handleSplitBatchItem tid l
        = l.take idx ++ (BatchTransaction.mk
            { item.core with
              amount := a,
              note := nt,
              originalAmount := none,
              originalNote := none } none)
          :: (children ++ l.drop (idx + 1))) := by
  refine ⟨?_, ?_, ?_, ?_, ?_, ?_, mergeUpdatedTarget_snapshot, ?_⟩
  · intro tempId amount ty categoryId date note
    rfl
  · intro l items h hitems
    rw [bufferInv_iff] at h ⊢
    intro u hu
    rcases List.mem_append.1 hu with hm | hm
    · exact h u hm
    · exact hitems u hm
  · intro l tid f h
    rw [bufferInv_iff] at h ⊢
    intro u hu
    rcases List.mem_map.1 hu with ⟨t, htl, rfl⟩
    by_cases hc : (t.tempId == tid) = true
    · rw [if_pos hc]
      exact applyField_batchInv t f (h t htl)
    · rw [if_neg hc]
      exact h t htl
  · intro l a tgt b h
    cases a with
    | none => exact h
    | some active =>
      cases b with
      | false =>
        simp only [handleSelectBatchMergeTarget, Bool.false_eq_true,
          if_false]
        rw [bufferInv_iff] at h ⊢
        intro u hu
        rcases List.mem_map.1 hu with ⟨t, htl, rfl⟩
        by_cases hc : (t.tempId == active) = true
        · rw [if_pos hc]
          exact setMergeTarget_batchInv t tgt (h t htl)
        · rw [if_neg hc]
          exact h t htl
      | true =>
        cases hs : l.find? (fun t => t.tempId == active) with
        | none =>
          simp only [handleSelectBatchMergeTarget, hs, if_true]
          exact h
        | some sourceItem =>
          cases ht : l.find? (fun t => t.tempId == tgt) with
          | none =>
            simp only [handleSelectBatchMergeTarget, hs, ht, if_true]
            exact h
          | some targetItem =>
            simp only [handleSelectBatchMergeTarget, hs, ht, if_true]
            have hsrc : BatchInv sourceItem = true :=
              (bufferInv_iff l).1 h _ (List.mem_of_find?_eq_some hs)
            have htgt : BatchInv targetItem = true :=
              (bufferInv_iff l).1 h _ (List.mem_of_find?_eq_some ht)
            rw [bufferInv_iff] at h ⊢
            intro u hu
            rcases List.mem_map.1 hu with ⟨t, htl, rfl⟩
            by_cases hc : (t.tempId == tgt) = true
            · rw [if_pos hc]
              exact mergeUpdatedTarget_batchInv sourceItem targetItem
                hsrc htgt
            · rw [if_neg hc]
              exact h t (List.mem_of_mem_filter htl)
  · intro l tid h
    cases hidx : findIndex (fun t => t.tempId == tid) l with
    | none => simpa only [handleSplitBatchItem, hidx] using h
    | some idx =>
      cases hget : l.get? idx with
      | none => simpa only [handleSplitBatchItem, hidx, hget] using h
      | some item =>
        cases hmc : item.mergedChildren with
        | none => simpa only [handleSplitBatchItem, hidx, hget, hmc] using h
        | some children =>
          by_cases hemp : children.isEmpty = true
          · simpa only [handleSplitBatchItem, hidx, hget, hmc, hemp,
              if_true] using h
          · simp only [handleSplitBatchItem, hidx, hget, hmc,
              if_neg hemp]
            have hitem : BatchInv item = true :=
              (bufferInv_iff l).1 h _ (List.get?_mem hget)
            have hch : BatchInvList children = true := by
              obtain ⟨c, m⟩ := item
              simp only [mergedChildren_mk] at hmc
              subst hmc
              exact batchInv_children c children hitem
            rw [bufferInv_iff] at h ⊢
            intro u hu
            rcases List.mem_append.1 hu with hm | hm
            · exact h u (List.take_subset idx l hm)
            · rcases List.mem_cons.1 hm with rfl | hm
              · rfl
              · rcases List.mem_append.1 hm with hm | hm
                · exact (batchInvList_iff children).1 hch u hm
                · exact h u (List.drop_subset (idx + 1) l hm)
  · intro l tid h
    rw [bufferInv_iff] at h ⊢
    intro u hu
    exact h u (List.mem_of_mem_filter hu)
  · intro l tid idx item children a nt hidx hget hmc hcne hoa hon
    have hemp : children.isEmpty = false := by
      cases children with
      | nil => exact absurd rfl hcne
      | cons x xs => rfl
    have hoa' : item.core.originalAmount = some a := hoa
    have hon' : item.core.originalNote = some nt := hon
    simp only [handleSplitBatchItem, hidx, hget, hmc, hemp,
      Bool.false_eq_true, if_false, hoa', hon', Option.getD_some]

/-- Witness for C5: the invariant holds of the concrete two-item buffer and
is preserved by the staged-target merge of A into B. -/
theorem c5_invariant_witness :
    BufferInv [itemA, itemB] ∧
    BufferInv (handleSelectBatchMergeTarget (some itemA.tempId)
      itemB.tempId true [itemA, itemB]) :=
  ⟨by decide,
   c5_invariant.2.2.2.1 [itemA, itemB] (some itemA.tempId) itemB.tempId
     true (by decide)⟩

/-! ## Commit partitioning (claim C7) -/

/-- The in-place rewrite that one merge-targeted item performs on one
stored transaction in the partial-offset regime (mirrors the
`offsetPartial` branch of `addTransaction`). -/
def applyOffset (n : NewTransaction) (tid : String) (t : Transaction) :
    Transaction :=
  if t.id == tid then offsetPartial n t else t

/-- `applyOffset` keyed by the staged item carrying the target id. -/
def applyItemOffset (i : BatchTransaction) (t : Transaction) : Transaction :=
  match i.mergeTargetId with
  | some tid => applyOffset (stripBatch i) tid t
  | none => t

/-- A merge-targeted staged item is in the no-remainder regime on a store:
its target id is truthy, resolves to a unique stored record, and that
record's amount strictly exceeds the item's amount. -/
def MergedOk (s : List Transaction) (i : BatchTransaction) : Prop :=
  ∃ tid target, i.mergeTargetId = some tid ∧ tid ≠ "" ∧
    s.find? (fun t => t.id == tid) = some target ∧
    (∀ t ∈ s, t.id = tid → t = target) ∧ i.amount < target.amount

theorem applyOffset_of_ne (n : NewTransaction) (tid : String)
    (t : Transaction) (h : t.id ≠ tid) : applyOffset n tid t = t := by
  unfold applyOffset
  rw [if_neg (by simp [h])]

theorem addTransaction_none (s : List Transaction)
    (l : List NewTransaction) (ts : Nat) :
    addTransaction s l none ts = s ++ withIds ts l := by
  cases l with
  | nil => rfl
  | cons a as => rfl

theorem withIds_length (ts : Nat) (l : List NewTransaction) :
    (withIds ts l).length = l.length := by
  simp [withIds]

theorem map_applyOffset_pos (s : List Transaction) (n : NewTransaction)
    (tid : String) (target : Transaction)
    (huniq : ∀ t ∈ s, t.id = tid → t = target)
    (hlt : n.amount < target.amount)
    (hpos : ∀ t ∈ s, 0 < t.amount) :
    ∀ t ∈ s.map (applyOffset n tid), 0 < t.amount := by
  intro u hu
  rcases List.mem_map.1 hu with ⟨t, ht, rfl⟩
  by_cases hid : t.id = tid
  · have heq : t = target := huniq t ht hid
    subst heq
    unfold applyOffset
    rw [if_pos (by simp [hid])]
    simpa [offsetPartial] using sub_pos.mpr hlt
  · rw [applyOffset_of_ne n tid t hid]
    exact hpos t ht

theorem addTransaction_partial_map (s : List Transaction)
    (n : NewTransaction) (tid : String) (ts : Nat) (target : Transaction)
    (htid : tid ≠ "")
    (hfind : s.find? (fun t => t.id == tid) = some target)
    (huniq : ∀ t ∈ s, t.id = tid → t = target)
    (hlt : n.amount < target.amount)
    (hpos : ∀ t ∈ s, 0 < t.amount) :
    addTransaction s [n] (some tid) ts = s.map (applyOffset n tid) := by
  have hbne : (tid != "") = true := bne_iff_ne.mpr htid
  have hmap : s.map (fun t =>
      if t.id == tid then
        if t.amount - n.amount ≤ 0 then offsetFull n t else offsetPartial n t
      else t) = s.map (applyOffset n tid) := by
    apply List.map_congr_left
    intro t ht
    by_cases hid : (t.id == tid) = true
    · have heq : t = target := huniq t ht (by simpa using hid)
      rw [if_pos hid]
      rw [if_neg (by rw [heq]; exact not_le.mpr (sub_pos.mpr hlt))]
      unfold applyOffset
      rw [if_pos hid]
    · rw [if_neg hid]
      unfold applyOffset
      rw [if_neg hid]
  simp only [addTransaction, hbne, if_true, hfind]
  rw [if_neg (asymm hlt), hmap]
  apply List.filter_eq_self.mpr
  intro a ha
  simpa using map_applyOffset_pos s n tid target huniq hlt hpos a ha

theorem enumFrom_concat (l : List α) (a : α) (k : Nat) :
    (l ++ [a]).enumFrom k = l.enumFrom k ++ [(k + l.length, a)] := by
  induction l generalizing k with
  | nil => simp [List.enumFrom]
  | cons b bs ih =>
    have h1 : ((b :: bs) ++ [a]).enumFrom k
        = (k, b) :: (bs ++ [a]).enumFrom (k + 1) := rfl
    have h2 : (b :: bs).enumFrom k = (k, b) :: bs.enumFrom (k + 1) := rfl
    rw [h1, ih (k + 1), h2, List.length_cons, List.cons_append]
    rw [show k + 1 + bs.length = k + (bs.length + 1) from by omega]

theorem enum_getLast?_concat (l : List α) (a : α) :
    (l ++ [a]).enum.getLast? = some (l.length, a) := by
  show ((l ++ [a]).enumFrom 0).getLast? = some (l.length, a)
  rw [enumFrom_concat, List.getLast?_concat, Nat.zero_add]

theorem filter_not_of_filter_nil (l : List α) (p : α → Bool)
    (h : l.filter p = []) : l.filter (fun a => !p a) = l := by
  apply List.filter_eq_self.mpr
  intro a ha
  have := List.filter_eq_nil_iff.mp h a ha
  simp [this]

theorem handleSaveAllBatch_last_merged (ts : Nat)
    (batchList : List BatchTransaction) (store : List Transaction)
    (mlist : List BatchTransaction) (last : BatchTransaction)
    (hvalid : batchList.filter (fun t => t.amount > 0) = batchList)
    (hbne : batchList ≠ [])
    (hm : batchList.filter (fun t => optTruthy t.mergeTargetId)
      = mlist ++ [last]) :
    (handleSaveAllBatch ts batchList store).transactions
      = addTransaction store [stripBatch last] last.mergeTargetId
          (ts + 1 + mlist.length) := by
  have hvne : (batchList.filter (fun t => t.amount > 0)).isEmpty
      = false := by
    rw [hvalid]
    cases batchList with
    | nil => exact absurd rfl hbne
    | cons a as => rfl
  have hbnee : batchList.isEmpty = false := by
    cases batchList with
    | nil => exact absurd rfl hbne
    | cons a as => rfl
  simp only [handleSaveAllBatch, hvalid, hvne, hbnee, Bool.false_eq_true,
    if_false, hm, enum_getLast?_concat]

theorem handleSaveAllBatch_plain_only (ts : Nat)
    (batchList : List BatchTransaction) (store : List Transaction)
    (hvalid : batchList.filter (fun t => t.amount > 0) = batchList)
    (hbne : batchList ≠ [])
    (hm0 : batchList.filter (fun t => optTruthy t.mergeTargetId) = []) :
    (handleSaveAllBatch ts batchList store).transactions
      = store ++ withIds ts (batchList.map stripBatch) := by
  have hvne : (batchList.filter (fun t => t.amount > 0)).isEmpty
      = false := by
    rw [hvalid]
    cases batchList with
    | nil => exact absurd rfl hbne
    | cons a as => rfl
  have hreg : batchList.filter (fun t => !optTruthy t.mergeTargetId)
      = batchList := filter_not_of_filter_nil _ _ hm0
  have hbnee : batchList.isEmpty = false := by
    cases batchList with
    | nil => exact absurd rfl hbne
    | cons a as => rfl
  simp only [handleSaveAllBatch, hvalid, hvne, hbnee, Bool.false_eq_true,
    if_false, hm0, hreg, List.enum_nil, List.getLast?_nil,
    addTransaction_none]

/-- C7 (amended): the commit partitioning depends on whether any staged
item carries a merge target, because the batch handler issues successive
`onSave` calls that all read the render-captured store, and only the last
write survives.  For a staged buffer of N positive-amount items of which M
carry a `mergeTargetId`: with M = 0 the commit appends exactly N new
Transaction records and performs no updates; with M ≥ 1 the committed
store is the save of the LAST merged item alone, applied to the
pre-handler store — in the no-remainder regime exactly one in-place update and zero
new records — and the N-M plain inserts and the earlier M-1 offsets are
lost. -/
theorem c7_amended_commit_partitioning :
    (∀ (ts : Nat) (batchList : List BatchTransaction)
        (store : List Transaction),
      (∀ i ∈ batchList, 0 < i.amount) → batchList ≠ [] →
      batchList.filter (fun t => optTruthy t.mergeTargetId) = [] →
      (handleSaveAllBatch ts batchList store).transactions
        = store ++ withIds ts (batchList.map stripBatch) ∧
      (withIds ts (batchList.map stripBatch)).length
        = batchList.length) ∧
    (∀ (ts : Nat) (batchList : List BatchTransaction)
        (store : List Transaction) (mlist : List BatchTransaction)
        (last : BatchTransaction),
      (∀ i ∈ batchList, 0 < i.amount) → batchList ≠ [] →
      batchList.filter (fun t => optTruthy t.mergeTargetId)
        = mlist ++ [last] →
      (handleSaveAllBatch ts batchList store).transactions
        = addTransaction store [stripBatch last] last.mergeTargetId
            (ts + 1 + mlist.length)) ∧
    (∀ (ts : Nat) (batchList : List BatchTransaction)
        (store : List Transaction) (mlist : List BatchTransaction)
        (last : BatchTransaction),
      (∀ i ∈ batchList, 0 < i.amount) → batchList ≠ [] →
      batchList.filter (fun t => optTruthy t.mergeTargetId)
        = mlist ++ [last] →
      (∀ t ∈ store, 0 < t.amount) →
      MergedOk store last →
      (handleSaveAllBatch ts batchList store).transactions
        = store.map (applyItemOffset last) ∧
      (store.map (applyItemOffset last)).length = store.length) := by
  have hval : ∀ (batchList : List BatchTransaction),
      (∀ i ∈ batchList, 0 < i.amount) →
      batchList.filter (fun t => t.amount > 0) = batchList :=
    fun batchList hpos =>
      List.filter_eq_self.mpr (fun a ha => by simp [hpos a ha])
  refine ⟨?_, ?_, ?_⟩
  · intro ts batchList store hpos hbne hm0
    exact ⟨handleSaveAllBatch_plain_only ts batchList store
        (hval batchList hpos) hbne hm0,
      by rw [withIds_length, List.length_map]⟩
  · intro ts batchList store mlist last hpos hbne hm
    exact handleSaveAllBatch_last_merged ts batchList store mlist last
      (hval batchList hpos) hbne hm
  · intro ts batchList store mlist last hpos hbne hm hspos hok
    obtain ⟨tid, target, hmt, htid, hfind, huniq, hlt⟩ := hok
    have hmap : store.map (applyOffset (stripBatch last) tid)
        = store.map (applyItemOffset last) := by
      apply List.map_congr_left
      intro t ht
      unfold applyItemOffset
      rw [hmt]
    refine ⟨?_, List.length_map _ _⟩
    rw [handleSaveAllBatch_last_merged ts batchList store mlist last
      (hval batchList hpos) hbne hm, hmt]
    rw [addTransaction_partial_map store (stripBatch last) tid
      (ts + 1 + mlist.length) target htid hfind huniq hlt hspos]
    exact hmap

def mergedItem120 : BatchTransaction :=
  .mk { tempId := "m", amount := 120, type := .expense, categoryId := "cat",
        date := "dd", note := "src", mergeTargetId := some "t1",
        originalAmount := none, originalNote := none } none

/-- C7 counterexample: a buffer of N = 1 positive-amount items of which
M = 1 carries a mergeTargetId, saved against a store holding the target
(amount 100 < item amount 120).  The claim promises N - M = 0 new records
and M = 1 in-place target updates; in fact the commit produces a
brand-new record (the remainder, whose id is fresh) and leaves no record
with the target id at all. -/
theorem c7_counterexample :
    (∀ i ∈ [mergedItem120], 0 < i.amount) ∧
    ([mergedItem120].filter (fun t => optTruthy t.mergeTargetId)).length
      = 1 ∧
    ([mergedItem120] : List BatchTransaction).length = 1 ∧
    (∃ t ∈ (handleSaveAllBatch 999 [mergedItem120] storeT1).transactions,
       ∀ s ∈ storeT1, s.id ≠ t.id) ∧
    ¬ (∃ t ∈ (handleSaveAllBatch 999 [mergedItem120] storeT1).transactions,
       t.id = "t1") := by decide

def mergedItem30 : BatchTransaction :=
  .mk { tempId := "m2", amount := 30, type := .expense, categoryId := "cat",
        date := "dd", note := "of", mergeTargetId := some "t1",
        originalAmount := none, originalNote := none } none

def batch7 : List BatchTransaction := [itemA, mergedItem30]

/-- Witness for C7 (amended): a two-item buffer — one plain item and one
offsetting item in the no-remainder regime — against the one-record
store.  The committed store is exactly the offset applied in place to the
original store: one update, no new records, the plain insert lost. -/
theorem c7_amended_commit_partitioning_witness :
    (handleSaveAllBatch 999 batch7 storeT1).transactions
      = storeT1.map (applyItemOffset mergedItem30) ∧
    (storeT1.map (applyItemOffset mergedItem30)).length
      = storeT1.length :=
  c7_amended_commit_partitioning.2.2 999 batch7 storeT1 [] mergedItem30
    (by decide) (by simp [batch7]) (by rfl) (by decide)
    ⟨"t1",
     { id := "t1", amount := 100, type := .income, categoryId := "c",
       date := "d", note := "inc" },
     rfl, by decide, by rfl, by decide, by decide⟩
